import Mathlib

/-!
# CRUD route handlers of `Practice2/app.js` (products) and `Practice3/server.js` (users)

Both programs keep one in-memory array and register Express route handlers on it.
Each handler is embedded as a pure function from the current array and the request
to the response and the array afterwards.

* The values of a parsed JSON body are `JSVal`; an absent field is `undefined`, as
  it is after the destructuring `const { name, price } = req.body`.
* Numbers are `JSNum`: NaN, the two infinities, and the finite values as rationals
  (the handlers never do arithmetic on them; `+0` and `-0` coincide, they are
  indistinguishable for `!x`, `<=`, `===` and `==`).
* The coercions the handlers rely on (`!x`, `isNaN`, `<=`, `Number`, `==`) follow
  ECMAScript: `toBoolean`, `toNumber`, `stringToNumber`.
* An exception thrown inside a handler is answered by Express with status 500.
-/

namespace FrontBack

/-! ## JavaScript numbers -/

/-- A JavaScript Number value. Finite values are kept as rationals. -/
inductive JSNum where
  | nan
  | posInf
  | negInf
  | fin (q : ℚ)
  deriving DecidableEq

namespace JSNum

/-- The test `x !== x`, true of NaN only. -/
def isNaN : JSNum → Bool
  | nan => true
  | _ => false

/-- Strict equality `a === b` of two numbers: NaN equals nothing. -/
def strictEq (a b : JSNum) : Bool :=
  !a.isNaN && !b.isNaN && decide (a = b)

/-- The comparison `x <= 0` of a number; false for NaN. -/
def leZero : JSNum → Bool
  | nan => false
  | posInf => false
  | negInf => true
  | fin q => decide (q ≤ 0)

/-- ToBoolean of a number: false for zero and NaN. -/
def truthy : JSNum → Bool
  | nan => false
  | fin q => decide (q ≠ 0)
  | _ => true

/-- A number strictly greater than zero (`+Infinity` included). -/
def isPositive : JSNum → Bool
  | posInf => true
  | fin q => decide (0 < q)
  | _ => false

end JSNum

/-! ## StringToNumber (ECMAScript 7.1.4.1.1) -/

/-- Code points of `StrWhiteSpaceChar`: WhiteSpace and LineTerminator. -/
def isStrWhiteSpaceChar (c : Char) : Bool :=
  let n := c.toNat
  n == 0x09 || n == 0x0A || n == 0x0B || n == 0x0C || n == 0x0D || n == 0x20 || n == 0xA0 ||
  n == 0x1680 || (0x2000 ≤ n && n ≤ 0x200A) || n == 0x2028 || n == 0x2029 || n == 0x202F ||
  n == 0x205F || n == 0x3000 || n == 0xFEFF

/-- Strips leading and trailing white space. -/
def trimWhiteSpace (cs : List Char) : List Char :=
  ((cs.dropWhile isStrWhiteSpaceChar).reverse.dropWhile isStrWhiteSpaceChar).reverse

/-- Value of a digit in the given base (2, 8, 10 or 16), if it is one. -/
def digitOf (base : Nat) (c : Char) : Option Nat :=
  let n := c.toNat
  let v : Option Nat :=
    if 48 ≤ n ∧ n ≤ 57 then some (n - 48)
    else if 97 ≤ n ∧ n ≤ 102 then some (n - 87)
    else if 65 ≤ n ∧ n ≤ 70 then some (n - 55)
    else none
  match v with
  | some d => if d < base then some d else none
  | none => none

/-- Accumulates the value of a run of digits; `none` at the first non-digit. -/
def digitsValueAux (base : Nat) : List Char → Nat → Option Nat
  | [], acc => some acc
  | c :: cs, acc =>
    match digitOf base c with
    | some d => digitsValueAux base cs (acc * base + d)
    | none => none

/-- Value of a non-empty run of digits. -/
def digitsValue (base : Nat) (cs : List Char) : Option Nat :=
  if cs.isEmpty then none else digitsValueAux base cs 0

/-- Decimal digit test. -/
def isDecimalDigit (c : Char) : Bool := (digitOf 10 c).isSome

/-- Nearest natural number to `n / d`, ties to the even one. -/
def roundTiesToEven (n d : Nat) : Nat :=
  let r := n / d
  let rem := n % d
  if 2 * rem < d then r
  else if d < 2 * rem then r + 1
  else if r % 2 = 0 then r else r + 1

/-- Floor of the binary logarithm, by halving (`fuel` bounds the number of halvings). -/
def floorLog2Aux : Nat → Nat → Nat
  | 0, _ => 0
  | fuel + 1, n => if n < 2 then 0 else floorLog2Aux fuel (n / 2) + 1

/-- Floor of the binary logarithm of a positive natural number. -/
def floorLog2 (n : Nat) : Nat := floorLog2Aux n n

/-- The Number value for the mathematical value `± n / d`: the nearest IEEE 754
binary64 value, ties to even, overflowing to an infinity. -/
def roundToDouble (neg : Bool) (n d : Nat) : JSNum :=
  if n = 0 ∨ d = 0 then .fin 0 else
  let e0 : Int := (floorLog2 n : Int) - (floorLog2 d : Int)
  let e1 : Int := if n * 2 ^ (-e0).toNat < d * 2 ^ e0.toNat then e0 - 1 else e0
  let q : Int := max e1 (-1022) - 52
  let r := roundTiesToEven (n * 2 ^ (-q).toNat) (d * 2 ^ q.toNat)
  if 1024 + (-q).toNat ≤ floorLog2 (r * 2 ^ q.toNat) then (if neg then .negInf else .posInf)
  else
    let v : ℚ := mkRat (r * 2 ^ q.toNat) (2 ^ (-q).toNat)
    .fin (if neg then -v else v)

/-- Value of an optional `ExponentPart` that must span the whole remainder. -/
def expPart (cs : List Char) : Option Int :=
  match cs with
  | [] => some 0
  | c :: rest =>
    if c = 'e' ∨ c = 'E' then
      match rest with
      | '+' :: ds => (digitsValue 10 ds).map Int.ofNat
      | '-' :: ds => (digitsValue 10 ds).map (fun k => - Int.ofNat k)
      | ds => (digitsValue 10 ds).map Int.ofNat
    else none

/-- Number value of a `StrUnsignedDecimalLiteral` with the sign already read. -/
def unsignedDecimal (neg : Bool) (cs : List Char) : JSNum :=
  if cs = "Infinity".toList then (if neg then .negInf else .posInf) else
  let ip := cs.takeWhile isDecimalDigit
  let r1 := cs.dropWhile isDecimalDigit
  let (fp, r2) : List Char × List Char :=
    match r1 with
    | '.' :: r => (r.takeWhile isDecimalDigit, r.dropWhile isDecimalDigit)
    | _ => ([], r1)
  if ip.isEmpty ∧ fp.isEmpty then .nan else
  match expPart r2, digitsValueAux 10 (ip ++ fp) 0 with
  | some e, some m =>
    let e10 : Int := e - fp.length
    roundToDouble neg (m * 10 ^ e10.toNat) (10 ^ (-e10).toNat)
  | _, _ => .nan

/-- StringToNumber: the Number a string converts to; NaN when it is not a
`StringNumericLiteral`, zero when it is empty or white space only. -/
def stringToNumber (s : String) : JSNum :=
  match trimWhiteSpace s.toList with
  | [] => .fin 0
  | '+' :: cs => unsignedDecimal false cs
  | '-' :: cs => unsignedDecimal true cs
  | '0' :: c :: cs =>
    let base : Nat :=
      if c = 'x' ∨ c = 'X' then 16 else if c = 'o' ∨ c = 'O' then 8
      else if c = 'b' ∨ c = 'B' then 2 else 0
    if base = 0 then unsignedDecimal false ('0' :: c :: cs)
    else match digitsValue base cs with
      | some m => roundToDouble false m 1
      | none => .nan
  | cs => unsignedDecimal false cs

/-! ## JavaScript values of a parsed JSON body -/

/-- A value found in a field of `req.body`. `undefined` is an absent field.
An array or object is only ever copied or coerced by the handlers; it is kept as its
JSON text together with the outcome of ToPrimitive on it: `some s` when that is the
string `s`, `none` when it throws a TypeError (own non-callable `toString`). -/
inductive JSVal where
  | undefined
  | null
  | bool (b : Bool)
  | num (n : JSNum)
  | str (s : String)
  | object (json : String) (prim : Option String)
  deriving DecidableEq

namespace JSVal

/-- ToBoolean, the meaning of `!x` and `if (x)`. -/
def toBoolean : JSVal → Bool
  | undefined => false
  | null => false
  | bool b => b
  | num n => n.truthy
  | str s => decide (s ≠ "")
  | object _ _ => true

/-- ToNumber; `none` when the conversion throws. -/
def toNumber : JSVal → Option JSNum
  | undefined => some .nan
  | null => some (.fin 0)
  | bool true => some (.fin 1)
  | bool false => some (.fin 0)
  | num n => some n
  | str s => some (stringToNumber s)
  | object _ (some s) => some (stringToNumber s)
  | object _ none => none

/-- The global `isNaN(x)`. -/
def isNaN (v : JSVal) : Option Bool := v.toNumber.map JSNum.isNaN

/-- The comparison `x <= 0`. -/
def leZero (v : JSVal) : Option Bool := v.toNumber.map JSNum.leZero

/-- The call `Number(x)`. -/
def Number (v : JSVal) : Option JSNum := v.toNumber

/-- The test `x !== undefined`. -/
def isDefined : JSVal → Bool
  | undefined => false
  | _ => true

end JSVal

/-- Loose equality `n == s` of a number and a string: the string is converted. -/
def looseEqNumStr (n : JSNum) (s : String) : Bool :=
  n.strictEq (stringToNumber s)

/-! ## Array operations used by the handlers -/

/-- The method `Array.prototype.findIndex`; `none` stands for `-1`. -/
def findIndex {α : Type} (p : α → Bool) : List α → Option Nat
  | [] => none
  | x :: xs => if p x then some 0 else (findIndex p xs).map (· + 1)

/-- In-place mutation by `f` of the object that `Array.prototype.find` returns:
the first element satisfying `p`. -/
def mutateFirst {α : Type} (p : α → Bool) (f : α → α) : List α → List α
  | [] => []
  | x :: xs => if p x then f x :: xs else x :: mutateFirst p f xs

/-! ## Responses -/

/-- What a handler passes to `res.json` / `res.send`. -/
inductive Body (α : Type) where
  | entity (x : α)
  | list (xs : List α)
  | error (msg : String)
  | errorWithSample (msg : String) (sampleName : String) (samplePrice : Nat)
  | message (msg : String)
  | empty
  | uncaught
  deriving DecidableEq

/-- Status code and body of a response. -/
structure Response (α : Type) where
  status : Nat
  body : Body α
  deriving DecidableEq

/-- The answer of Express to an exception thrown by a handler. -/
def internalError {α : Type} : Response α := ⟨500, .uncaught⟩

/-! ## Practice2: products -/

namespace Practice2

/-- An element of `products`. -/
structure Product where
  id : JSNum
  name : JSVal
  price : JSNum
  deriving DecidableEq

/-- The fields `const { name, price } = req.body`. -/
structure ReqBody where
  name : JSVal
  price : JSVal
  deriving DecidableEq

/-- The array `products` at start-up (app.js 6-10). -/
def initialProducts : List Product :=
  [⟨.fin 1, .str "Ноутбук", .fin 75000⟩,
   ⟨.fin 2, .str "Смартфон", .fin 45000⟩,
   ⟨.fin 3, .str "Наушники", .fin 5000⟩]

/-- The 400 answer to an invalid price. -/
def badPrice : Response Product := ⟨400, .error "price должно быть положительным числом"⟩

/-- The 404 answer. -/
def notFound : Response Product := ⟨404, .error "Товар не найден"⟩

/-- POST /products (app.js 50-74); `now` is the value of `Date.now()`. -/
def postProducts (now : Int) (products : List Product) (body : ReqBody) :
    Response Product × List Product :=
  if !body.name.toBoolean || !body.price.toBoolean then
    (⟨400, .errorWithSample "Не указаны name или price" "Товар" 1000⟩, products)
  else
    match body.price.isNaN with
    | none => (internalError, products)
    | some true => (badPrice, products)
    | some false =>
      match body.price.leZero with
      | none => (internalError, products)
      | some true => (badPrice, products)
      | some false =>
        match body.price.Number with
        | none => (internalError, products)
        | some price =>
          let newProduct : Product := ⟨.fin now, body.name, price⟩
          (⟨201, .entity newProduct⟩, products ++ [newProduct])

/-- GET /products (app.js 80-82). -/
def getProducts (products : List Product) : Response Product × List Product :=
  (⟨200, .list products⟩, products)

/-- GET /products/:id (app.js 88-97). -/
def getProductById (products : List Product) (idParam : String) :
    Response Product × List Product :=
  let id := stringToNumber idParam
  match products.find? (fun p => p.id.strictEq id) with
  | none => (notFound, products)
  | some product => (⟨200, .entity product⟩, products)

/-- PUT /products/:id (app.js 104-134). -/
def putProduct (products : List Product) (idParam : String) (body : ReqBody) :
    Response Product × List Product :=
  let id := stringToNumber idParam
  if !body.name.toBoolean || !body.price.toBoolean then
    (⟨400, .errorWithSample "Для PUT нужны name и price" "Новый товар" 1000⟩, products)
  else
    match body.price.isNaN with
    | none => (internalError, products)
    | some true => (badPrice, products)
    | some false =>
      match body.price.leZero with
      | none => (internalError, products)
      | some true => (badPrice, products)
      | some false =>
        match findIndex (fun p => p.id.strictEq id) products with
        | none => (notFound, products)
        | some index =>
          match body.price.Number with
          | none => (internalError, products)
          | some price =>
            let replaced : Product := ⟨id, body.name, price⟩
            (⟨200, .entity replaced⟩, products.set index replaced)

/-- The second half of PATCH (app.js 159-164): the name, then the answer.
`product` is the found object as it is now, `products` the array holding it. -/
def patchName (id : JSNum) (name : JSVal) (product : Product) (products : List Product) :
    Response Product × List Product :=
  if name.isDefined then
    (⟨200, .entity { product with name := name }⟩,
      mutateFirst (fun p => p.id.strictEq id) (fun p => { p with name := name }) products)
  else
    (⟨200, .entity product⟩, products)

/-- PATCH /products/:id (app.js 141-165). -/
def patchProduct (products : List Product) (idParam : String) (body : ReqBody) :
    Response Product × List Product :=
  let id := stringToNumber idParam
  match products.find? (fun p => p.id.strictEq id) with
  | none => (notFound, products)
  | some product =>
    if body.price.isDefined then
      match body.price.isNaN with
      | none => (internalError, products)
      | some true => (badPrice, products)
      | some false =>
        match body.price.leZero with
        | none => (internalError, products)
        | some true => (badPrice, products)
        | some false =>
          match body.price.Number with
          | none => (internalError, products)
          | some price =>
            patchName id body.name { product with price := price }
              (mutateFirst (fun p => p.id.strictEq id) (fun p => { p with price := price })
                products)
    else
      patchName id body.name product products

/-- DELETE /products/:id (app.js 171-182). -/
def deleteProduct (products : List Product) (idParam : String) :
    Response Product × List Product :=
  let id := stringToNumber idParam
  let initialLength := products.length
  let products := products.filter (fun p => !p.id.strictEq id)
  if products.length = initialLength then
    (notFound, products)
  else
    (⟨200, .message "Товар успешно удалён"⟩, products)

/-- A request to one of the routes on `/products`; a POST carries the value that
`Date.now()` returns while it is served. -/
inductive Request where
  | getAll
  | getById (idParam : String)
  | post (now : Int) (body : ReqBody)
  | put (idParam : String) (body : ReqBody)
  | patch (idParam : String) (body : ReqBody)
  | delete (idParam : String)

/-- Dispatch of a request to its handler. -/
def handle (products : List Product) : Request → Response Product × List Product
  | .getAll => getProducts products
  | .getById idParam => getProductById products idParam
  | .post now body => postProducts now products body
  | .put idParam body => putProduct products idParam body
  | .patch idParam body => patchProduct products idParam body
  | .delete idParam => deleteProduct products idParam

/-- The array after serving the requests one after the other. -/
def run (products : List Product) : List Request → List Product
  | [] => products
  | r :: rs => run (handle products r).2 rs

/-- The arrays that some sequence of requests produces from the start-up array. -/
def Reachable (products : List Product) : Prop :=
  ∃ rs : List Request, run initialProducts rs = products

end Practice2

/-! ## Practice3: users -/

namespace Practice3

/-- An element of `users`. -/
structure User where
  id : JSNum
  name : JSVal
  age : JSNum
  deriving DecidableEq

/-- The fields `const { name, age } = req.body`. -/
structure ReqBody where
  name : JSVal
  age : JSVal
  deriving DecidableEq

/-- The array `users` at start-up (server.js 6-10). -/
def initialUsers : List User :=
  [⟨.fin 1, .str "Петр", .fin 16⟩,
   ⟨.fin 2, .str "Иван", .fin 18⟩,
   ⟨.fin 3, .str "Дарья", .fin 20⟩]

/-- The 404 answer. -/
def notFound : Response User := ⟨404, .error "Пользователь не найден"⟩

/-- GET /users (server.js 21-23). -/
def getUsers (users : List User) : Response User × List User :=
  (⟨200, .list users⟩, users)

/-- GET /users/:id (server.js 26-32). -/
def getUserById (users : List User) (idParam : String) : Response User × List User :=
  match users.find? (fun u => looseEqNumStr u.id idParam) with
  | none => (notFound, users)
  | some user => (⟨200, .entity user⟩, users)

/-- POST /users (server.js 35-50). -/
def postUsers (users : List User) (body : ReqBody) : Response User × List User :=
  if !body.name.toBoolean || !body.age.toBoolean then
    (⟨400, .error "Имя и возраст обязательны"⟩, users)
  else
    match body.age.Number with
    | none => (internalError, users)
    | some age =>
      let newUser : User := ⟨.fin (users.length + 1 : ℕ), body.name, age⟩
      (⟨201, .entity newUser⟩, users ++ [newUser])

/-- PUT /users/:id (server.js 53-65). The name is assigned before `Number(age)` is
evaluated, so it stays assigned when that call throws. -/
def putUser (users : List User) (idParam : String) (body : ReqBody) :
    Response User × List User :=
  match users.find? (fun u => looseEqNumStr u.id idParam) with
  | none => (notFound, users)
  | some user =>
    let user1 : User := if body.name.toBoolean then { user with name := body.name } else user
    let users1 : List User :=
      if body.name.toBoolean then
        mutateFirst (fun u => looseEqNumStr u.id idParam) (fun u => { u with name := body.name })
          users
      else users
    if body.age.toBoolean then
      match body.age.Number with
      | none => (internalError, users1)
      | some age =>
        (⟨200, .entity { user1 with age := age }⟩,
          mutateFirst (fun u => looseEqNumStr u.id idParam) (fun u => { u with age := age })
            users1)
    else
      (⟨200, .entity user1⟩, users1)

/-- DELETE /users/:id (server.js 68-76). -/
def deleteUser (users : List User) (idParam : String) : Response User × List User :=
  match findIndex (fun u => looseEqNumStr u.id idParam) users with
  | none => (notFound, users)
  | some index => (⟨204, .empty⟩, users.eraseIdx index)

/-- A request to one of the routes on `/users`. -/
inductive Request where
  | getAll
  | getById (idParam : String)
  | post (body : ReqBody)
  | put (idParam : String) (body : ReqBody)
  | delete (idParam : String)

/-- Dispatch of a request to its handler. -/
def handle (users : List User) : Request → Response User × List User
  | .getAll => getUsers users
  | .getById idParam => getUserById users idParam
  | .post body => postUsers users body
  | .put idParam body => putUser users idParam body
  | .delete idParam => deleteUser users idParam

/-- The array after serving the requests one after the other. -/
def run (users : List User) : List Request → List User
  | [] => users
  | r :: rs => run (handle users r).2 rs

/-- The arrays that some sequence of requests produces from the start-up array. -/
def Reachable (users : List User) : Prop :=
  ∃ rs : List Request, run initialUsers rs = users

end Practice3

/-! ## Lemmas on the array operations -/

theorem JSNum.eq_of_strictEq {a b : JSNum} (h : a.strictEq b = true) : a = b := by
  simp [JSNum.strictEq] at h
  exact h.2

theorem findIndex_eq_none_iff {α : Type} (p : α → Bool) (l : List α) :
    findIndex p l = none ↔ ∀ x ∈ l, p x = false := by
  induction l with
  | nil => simp [findIndex]
  | cons a l ih =>
    by_cases ha : p a = true
    · simp [findIndex, ha]
    · simp [findIndex, ha, ih]

theorem findIndex_spec {α : Type} (p : α → Bool) (l : List α) (i : Nat)
    (h : findIndex p l = some i) :
    ∃ x, l[i]? = some x ∧ p x = true ∧ l.find? p = some x ∧
      ∀ j y, j < i → l[j]? = some y → p y = false := by
  induction l generalizing i with
  | nil => simp [findIndex] at h
  | cons a l ih =>
    by_cases ha : p a = true
    · simp [findIndex, ha] at h
      subst h
      exact ⟨a, by simp, ha, by simp [ha], by intro j y hj; omega⟩
    · simp [findIndex, ha] at h
      obtain ⟨k, hk, rfl⟩ := h
      obtain ⟨x, hx, hpx, hfind, hfirst⟩ := ih k hk
      refine ⟨x, by simpa using hx, hpx, by simpa [ha] using hfind, ?_⟩
      intro j y hj hy
      cases j with
      | zero =>
        simp at hy
        subst hy
        simpa using ha
      | succ j =>
        simp at hy
        exact hfirst j y (by omega) hy

theorem findIndex_of_mem {α : Type} (p : α → Bool) (l : List α)
    (h : ∃ x ∈ l, p x = true) : ∃ i, findIndex p l = some i := by
  cases hfi : findIndex p l with
  | some i => exact ⟨i, rfl⟩
  | none =>
    obtain ⟨x, hx, hpx⟩ := h
    have := (findIndex_eq_none_iff p l).mp hfi x hx
    simp [hpx] at this

theorem mutateFirst_eq_set {α : Type} (p : α → Bool) (f : α → α) (l : List α) (i : Nat)
    (x : α) (h : findIndex p l = some i) (hx : l[i]? = some x) :
    mutateFirst p f l = l.set i (f x) := by
  induction l generalizing i with
  | nil => simp [findIndex] at h
  | cons a l ih =>
    by_cases ha : p a = true
    · simp [findIndex, ha] at h
      subst h
      simp at hx
      subst hx
      simp [mutateFirst, ha]
    · simp [findIndex, ha] at h
      obtain ⟨k, hk, rfl⟩ := h
      simp at hx
      simp [mutateFirst, ha, ih k hk hx]

theorem mutateFirst_mutateFirst {α : Type} (p : α → Bool) (f g : α → α) (l : List α)
    (hf : ∀ x, p (f x) = p x) :
    mutateFirst p g (mutateFirst p f l) = mutateFirst p (fun x => g (f x)) l := by
  induction l with
  | nil => simp [mutateFirst]
  | cons a l ih =>
    by_cases ha : p a = true
    · simp [mutateFirst, ha, hf]
    · simp [mutateFirst, ha, ih]

theorem set_eq_self_of_getElem? {α : Type} (l : List α) (i : Nat) (x : α)
    (h : l[i]? = some x) : l.set i x = l := by
  induction l generalizing i with
  | nil => simp
  | cons a l ih =>
    cases i with
    | zero =>
      simp at h
      simp [h]
    | succ i =>
      simp at h
      simp [ih i h]

theorem countP_eraseIdx_findIndex {α : Type} (p : α → Bool) (l : List α) (i : Nat)
    (h : findIndex p l = some i) : (l.eraseIdx i).countP p + 1 = l.countP p := by
  induction l generalizing i with
  | nil => simp [findIndex] at h
  | cons a l ih =>
    by_cases ha : p a = true
    · simp [findIndex, ha] at h
      subst h
      simp [ha]
    · simp [findIndex, ha] at h
      obtain ⟨k, hk, rfl⟩ := h
      simp [ha, ih k hk]

theorem JSVal.isDefined_eq_false {v : JSVal} : v.isDefined = false ↔ v = .undefined := by
  cases v <;> simp [JSVal.isDefined]

theorem JSVal.price_checks_of_positive {n : JSNum} (h : n.isPositive = true) :
    (JSVal.num n).toBoolean = true ∧ (JSVal.num n).isNaN = some false ∧
      (JSVal.num n).leZero = some false ∧ (JSVal.num n).Number = some n := by
  cases n with
  | nan => simp [JSNum.isPositive] at h
  | negInf => simp [JSNum.isPositive] at h
  | posInf =>
    simp [JSVal.toBoolean, JSVal.isNaN, JSVal.leZero, JSVal.Number, JSVal.toNumber,
      JSNum.truthy, JSNum.isNaN, JSNum.leZero]
  | fin q =>
    have hq : 0 < q := by simpa [JSNum.isPositive] using h
    simp [JSVal.toBoolean, JSVal.isNaN, JSVal.leZero, JSVal.Number, JSVal.toNumber,
      JSNum.truthy, JSNum.isNaN, JSNum.leZero, not_le.mpr hq, ne_of_gt hq]

theorem find?_first_match {α : Type} (p : α → Bool) (l : List α)
    (h : ∃ x ∈ l, p x = true) :
    ∃ i x, findIndex p l = some i ∧ l.find? p = some x ∧ l[i]? = some x ∧ p x = true ∧
      ∀ j y, j < i → l[j]? = some y → p y = false := by
  obtain ⟨i, hi⟩ := findIndex_of_mem p l h
  obtain ⟨x, hx, hpx, hfind, hfirst⟩ := findIndex_spec p l i hi
  exact ⟨i, x, hi, hfind, hx, hpx, hfirst⟩

theorem find?_eq_none_of_no_match {α : Type} (p : α → Bool) (l : List α)
    (h : ∀ x ∈ l, p x = false) : l.find? p = none := by
  rw [List.find?_eq_none]
  intro x hx
  simp [h x hx]

theorem JSVal.toBoolean_of_positive {v : JSVal} {n : JSNum} (h : v.toNumber = some n)
    (hn : n.isPositive = true) : v.toBoolean = true := by
  cases v with
  | undefined =>
    simp [JSVal.toNumber] at h
    subst h
    simp [JSNum.isPositive] at hn
  | null =>
    simp [JSVal.toNumber] at h
    subst h
    simp [JSNum.isPositive] at hn
  | bool b =>
    cases b with
    | true => rfl
    | false =>
      simp [JSVal.toNumber] at h
      subst h
      simp [JSNum.isPositive] at hn
  | num m =>
    simp [JSVal.toNumber] at h
    subst h
    cases m <;> simp [JSNum.isPositive] at hn <;> simp [JSVal.toBoolean, JSNum.truthy]
    exact ne_of_gt hn
  | str s =>
    by_cases hs : s = ""
    · subst hs
      simp [JSVal.toNumber] at h
      subst h
      revert hn
      decide
    · simp [JSVal.toBoolean, hs]
  | object j p => rfl

theorem JSVal.positive_of_checks {v : JSVal} {n : JSNum} (h1 : v.isNaN = some false)
    (h2 : v.leZero = some false) (h3 : v.Number = some n) : n.isPositive = true := by
  simp only [JSVal.Number] at h3
  simp only [JSVal.isNaN, JSVal.leZero, h3, Option.map_some', Option.some.injEq] at h1 h2
  cases n with
  | nan => simp [JSNum.isNaN] at h1
  | posInf => rfl
  | negInf => simp [JSNum.leZero] at h2
  | fin q =>
    simp only [JSNum.leZero, decide_eq_false_iff_not, not_le] at h2
    simp [JSNum.isPositive, h2]

theorem mem_mutateFirst {α : Type} (p : α → Bool) (f : α → α) (l : List α) (x : α)
    (h : x ∈ mutateFirst p f l) : x ∈ l ∨ ∃ y ∈ l, x = f y := by
  induction l with
  | nil => simp [mutateFirst] at h
  | cons a l ih =>
    by_cases ha : p a = true
    · simp only [mutateFirst, ha, if_true, List.mem_cons] at h
      rcases h with h | h
      · exact Or.inr ⟨a, by simp, h⟩
      · exact Or.inl (by simp [h])
    · have h2 : x ∈ a :: mutateFirst p f l := by simpa [mutateFirst, ha] using h
      rcases List.mem_cons.mp h2 with h3 | h3
      · exact Or.inl (by simp [h3])
      · rcases ih h3 with h4 | ⟨y, hy, hxy⟩
        · exact Or.inl (by simp [h4])
        · exact Or.inr ⟨y, by simp [hy], hxy⟩

open Practice3 in
theorem putUser_eq (L : List User) (idParam : String) (body : Practice3.ReqBody) (i : Nat)
    (old : User) (hi : findIndex (fun u : User => looseEqNumStr u.id idParam) L = some i)
    (hold : L[i]? = some old)
    (hfind : L.find? (fun u : User => looseEqNumStr u.id idParam) = some old) :
    putUser L idParam body =
      if body.age.toBoolean = true then
        match body.age.toNumber with
        | none =>
          (internalError,
            L.set i ⟨old.id, if body.name.toBoolean = true then body.name else old.name,
              old.age⟩)
        | some a =>
          (⟨200, .entity
              ⟨old.id, if body.name.toBoolean = true then body.name else old.name, a⟩⟩,
            L.set i ⟨old.id, if body.name.toBoolean = true then body.name else old.name, a⟩)
      else
        (⟨200, .entity
            ⟨old.id, if body.name.toBoolean = true then body.name else old.name, old.age⟩⟩,
          L.set i ⟨old.id, if body.name.toBoolean = true then body.name else old.name,
            old.age⟩) := by
  have hself : L.set i ⟨old.id, old.name, old.age⟩ = L := set_eq_self_of_getElem? L i old hold
  have hname := mutateFirst_eq_set (fun u : User => looseEqNumStr u.id idParam)
    (fun u => { u with name := body.name }) L i old hi hold
  have hmm : ∀ a : JSNum,
      mutateFirst (fun u : User => looseEqNumStr u.id idParam) (fun u => { u with age := a })
        (mutateFirst (fun u : User => looseEqNumStr u.id idParam)
          (fun u => { u with name := body.name }) L) =
      L.set i ⟨old.id, body.name, a⟩ := by
    intro a
    rw [mutateFirst_mutateFirst (fun u : User => looseEqNumStr u.id idParam)
      (fun u => { u with name := body.name }) (fun u => { u with age := a }) L (fun _ => rfl),
      mutateFirst_eq_set _ _ L i old hi hold]
  have hage : ∀ a : JSNum,
      mutateFirst (fun u : User => looseEqNumStr u.id idParam) (fun u => { u with age := a }) L =
      L.set i ⟨old.id, old.name, a⟩ := fun a => mutateFirst_eq_set _ _ L i old hi hold
  unfold putUser
  rw [hfind]
  by_cases hn : body.name.toBoolean = true <;> by_cases ha : body.age.toBoolean = true
  · cases hnum : body.age.toNumber with
    | none => simp [hn, ha, JSVal.Number, hnum, hname]
    | some a => simp [hn, ha, JSVal.Number, hnum, hmm]
  · simp [hn, ha, hname]
  · cases hnum : body.age.toNumber with
    | none => simp [hn, ha, JSVal.Number, hnum, hself]
    | some a => simp [hn, ha, JSVal.Number, hnum, hage]
  · simp [hn, ha, hself]

open Practice2 in
theorem postProducts_of_created (now : Int) (P : List Product) (body : Practice2.ReqBody)
    (h : (postProducts now P body).1.status = 201) :
    ∃ price, postProducts now P body =
      (⟨201, .entity ⟨.fin now, body.name, price⟩⟩, P ++ [⟨.fin now, body.name, price⟩]) := by
  unfold postProducts at h ⊢
  split at h
  · simp at h
  · rename_i hc
    rw [if_neg hc]
    split at h
    · simp [internalError] at h
    · simp [badPrice] at h
    · split at h
      · simp [internalError] at h
      · simp [badPrice] at h
      · split at h
        · simp [internalError] at h
        · rename_i price hnum
          exact ⟨price, rfl⟩

open Practice3 in
theorem postUsers_of_created (U : List User) (body : Practice3.ReqBody)
    (h : (postUsers U body).1.status = 201) :
    ∃ age, postUsers U body =
      (⟨201, .entity ⟨.fin (U.length + 1 : ℕ), body.name, age⟩⟩,
        U ++ [⟨.fin (U.length + 1 : ℕ), body.name, age⟩]) := by
  unfold postUsers at h ⊢
  split at h
  · simp at h
  · rename_i hc
    rw [if_neg hc]
    split at h
    · simp [internalError] at h
    · rename_i age hnum
      exact ⟨age, rfl⟩

/-! ## Theorems: validation and creation -/

open Practice2 in
/-- C1: POST /products with a non-empty string name `n`, a positive number `p` and
`Date.now()` equal to `t` answers 201 with the object of id `t`, name `n`, price `p`,
and the array afterwards is the old array with that object appended. -/
theorem postProducts_created (L : List Product) (n : String) (p : JSNum) (t : Int)
    (hn : n ≠ "") (hp : p.isPositive = true) :
    postProducts t L ⟨.str n, .num p⟩ =
      (⟨201, .entity ⟨.fin t, .str n, p⟩⟩, L ++ [⟨.fin t, .str n, p⟩]) := by
  cases p with
  | nan => simp [JSNum.isPositive] at hp
  | negInf => simp [JSNum.isPositive] at hp
  | posInf =>
    simp [postProducts, JSVal.toBoolean, JSVal.isNaN, JSVal.leZero, JSVal.Number,
      JSVal.toNumber, JSNum.truthy, JSNum.isNaN, JSNum.leZero, hn]
  | fin q =>
    have hq : 0 < q := by simpa [JSNum.isPositive] using hp
    simp [postProducts, JSVal.toBoolean, JSVal.isNaN, JSVal.leZero, JSVal.Number,
      JSVal.toNumber, JSNum.truthy, JSNum.isNaN, JSNum.leZero, hn, not_le.mpr hq, ne_of_gt hq]

open Practice2 in
/-- Witness of C1 on the start-up array. -/
theorem postProducts_created_witness :
    postProducts 1700000000000 initialProducts ⟨.str "Планшет", .num (.fin 30000)⟩ =
      (⟨201, .entity ⟨.fin 1700000000000, .str "Планшет", .fin 30000⟩⟩,
        initialProducts ++ [⟨.fin 1700000000000, .str "Планшет", .fin 30000⟩]) :=
  postProducts_created initialProducts "Планшет" (.fin 30000) 1700000000000
    (by decide) (by decide)

open Practice2 in
/-- C2, counterexample: the price `true` is a boolean, not a number; `!true` is false,
`isNaN(true)` is false and `true <= 0` is false, so POST /products answers 201 and
appends a product of price `Number(true) = 1` instead of answering 400. -/
theorem postProducts_boolean_price_accepted :
    postProducts 1700000000000 initialProducts ⟨.str "Планшет", .bool true⟩ =
      (⟨201, .entity ⟨.fin 1700000000000, .str "Планшет", .fin 1⟩⟩,
        initialProducts ++ [⟨.fin 1700000000000, .str "Планшет", .fin 1⟩]) := by
  decide

open Practice2 in
/-- C2, amended: POST /products answers 400 and leaves the array as it was whenever
the name is falsy (absent, empty string, null, ...), or the price is falsy (absent,
null, zero, ...), or the price converts under ToNumber to NaN, to zero or to a
negative number. -/
theorem postProducts_rejected (L : List Product) (now : Int) (body : ReqBody)
    (h : body.name.toBoolean = false ∨ body.price.toBoolean = false ∨
      body.price.toNumber = some .nan ∨
      ∃ n, body.price.toNumber = some n ∧ n.leZero = true) :
    (postProducts now L body).1.status = 400 ∧ (postProducts now L body).2 = L := by
  unfold postProducts
  by_cases h1 : (!body.name.toBoolean || !body.price.toBoolean) = true
  · simp [h1]
  · rw [if_neg h1]
    have h2 : body.name.toBoolean = true ∧ body.price.toBoolean = true := by
      simpa using h1
    rcases h with h | h | h | ⟨n, h, hn⟩
    · simp [h2.1] at h
    · simp [h2.2] at h
    · simp [JSVal.isNaN, h, JSNum.isNaN, badPrice]
    · cases n <;>
        simp [JSVal.isNaN, JSVal.leZero, h, JSNum.isNaN, badPrice, JSNum.leZero] at hn ⊢
      simp [hn]

open Practice2 in
/-- Witness of C2 (amended): a negative price on the start-up array. -/
theorem postProducts_rejected_witness :
    (postProducts 0 initialProducts ⟨.str "Планшет", .num (.fin (-5))⟩).1.status = 400 ∧
      (postProducts 0 initialProducts ⟨.str "Планшет", .num (.fin (-5))⟩).2 =
        initialProducts :=
  postProducts_rejected initialProducts 0 ⟨.str "Планшет", .num (.fin (-5))⟩
    (Or.inr (Or.inr (Or.inr ⟨.fin (-5), rfl, by decide⟩)))

open Practice2 in
/-- C5: PUT /products/:id with a missing name or a missing price (an absent field is
`undefined`, which is falsy, as are the empty string, null and zero) answers 400 and
leaves the array as it was, whatever the id. -/
theorem putProduct_missing_field (L : List Product) (idParam : String) (body : ReqBody)
    (h : body.name.toBoolean = false ∨ body.price.toBoolean = false) :
    (putProduct L idParam body).1.status = 400 ∧ (putProduct L idParam body).2 = L := by
  unfold putProduct
  rcases h with h | h <;> simp [h]

open Practice2 in
/-- Witness of C5: a body with a name only, for an id that exists and one that does not. -/
theorem putProduct_missing_field_witness :
    ((putProduct initialProducts "1" ⟨.str "Планшет", .undefined⟩).1.status = 400 ∧
      (putProduct initialProducts "1" ⟨.str "Планшет", .undefined⟩).2 = initialProducts) ∧
    ((putProduct initialProducts "999" ⟨.undefined, .num (.fin 10)⟩).1.status = 400 ∧
      (putProduct initialProducts "999" ⟨.undefined, .num (.fin 10)⟩).2 = initialProducts) :=
  ⟨putProduct_missing_field initialProducts "1" ⟨.str "Планшет", .undefined⟩ (Or.inr rfl),
   putProduct_missing_field initialProducts "999" ⟨.undefined, .num (.fin 10)⟩ (Or.inl rfl)⟩

open Practice3 in
/-- C7, counterexample: POST /users tests only `!name || !age`; a negative age and a
non-numeric age are both truthy, so each is answered 201 and a user is appended, with
age `-5` and with age `Number("abc") = NaN`. -/
theorem postUsers_invalid_age_accepted :
    postUsers initialUsers ⟨.str "Анна", .num (.fin (-5))⟩ =
      (⟨201, .entity ⟨.fin 4, .str "Анна", .fin (-5)⟩⟩,
        initialUsers ++ [⟨.fin 4, .str "Анна", .fin (-5)⟩]) ∧
    postUsers initialUsers ⟨.str "Анна", .str "abc"⟩ =
      (⟨201, .entity ⟨.fin 4, .str "Анна", .nan⟩⟩,
        initialUsers ++ [⟨.fin 4, .str "Анна", .nan⟩]) := by
  decide

open Practice3 in
/-- C7, amended: POST /users answers 400 and leaves the array as it was whenever the
name or the age is falsy (absent, null, zero, the empty string, false). -/
theorem postUsers_rejected (L : List User) (body : ReqBody)
    (h : body.name.toBoolean = false ∨ body.age.toBoolean = false) :
    postUsers L body = (⟨400, .error "Имя и возраст обязательны"⟩, L) := by
  unfold postUsers
  rcases h with h | h <;> simp [h]

open Practice3 in
/-- Witness of C7 (amended): an age of zero on the start-up array. -/
theorem postUsers_rejected_witness :
    postUsers initialUsers ⟨.str "Анна", .num (.fin 0)⟩ =
      (⟨400, .error "Имя и возраст обязательны"⟩, initialUsers) :=
  postUsers_rejected initialUsers ⟨.str "Анна", .num (.fin 0)⟩ (Or.inr (by decide))

/-! ## Theorems: lookup, update and removal -/

open Practice2 in
/-- C3: PATCH /products/:id, when some product has the id and the price of the body is
absent or a positive number, answers 200 with the patched product and changes the
array at one place only, the first index `i` whose product has the id: there the id is
kept, the name is the supplied one or else the old one, the price is the supplied one
or else the old one; the length and every other index are as before. -/
theorem patchProduct_frame (L : List Product) (idParam : String) (body : ReqBody)
    (hmem : ∃ p ∈ L, p.id.strictEq (stringToNumber idParam) = true)
    (hprice : body.price = .undefined ∨ ∃ n, body.price = .num n ∧ n.isPositive = true) :
    ∃ (i : Nat) (old new : Product),
      L[i]? = some old ∧ old.id.strictEq (stringToNumber idParam) = true ∧
      (∀ (j : Nat) (y : Product), j < i → L[j]? = some y → y.id.strictEq (stringToNumber idParam) = false) ∧
      new.id = old.id ∧
      (body.name = .undefined → new.name = old.name) ∧
      (body.name ≠ .undefined → new.name = body.name) ∧
      (body.price = .undefined → new.price = old.price) ∧
      (∀ n, body.price = .num n → new.price = n) ∧
      patchProduct L idParam body = (⟨200, .entity new⟩, L.set i new) ∧
      (patchProduct L idParam body).2.length = L.length ∧
      ∀ j, j ≠ i → (patchProduct L idParam body).2[j]? = L[j]? := by
  obtain ⟨i, hi⟩ := findIndex_of_mem _ L hmem
  obtain ⟨old, hold, hpold, hfind, hfirst⟩ := findIndex_spec _ L i hi
  have key : ∀ new : Product, patchProduct L idParam body = (⟨200, .entity new⟩, L.set i new) →
      (patchProduct L idParam body).2.length = L.length ∧
      ∀ j, j ≠ i → (patchProduct L idParam body).2[j]? = L[j]? := by
    intro new h
    rw [h]
    refine ⟨by simp, ?_⟩
    intro j hj
    simp [List.getElem?_set_ne (Ne.symm hj)]
  by_cases hname : body.name = .undefined
  · rcases hprice with hp | ⟨n, hp, hpos⟩
    · have hrun : patchProduct L idParam body = (⟨200, .entity old⟩, L.set i old) := by
        have hset : L.set i old = L := set_eq_self_of_getElem? L i old hold
        simp [patchProduct, hfind, hp, hname, JSVal.isDefined, patchName, hset]
      exact ⟨i, old, old, hold, hpold, hfirst, rfl, fun _ => rfl, fun h => absurd hname h,
        fun _ => rfl, fun n hn => by simp [hp] at hn, hrun, key old hrun⟩
    · obtain ⟨-, h1, h2, h3⟩ := JSVal.price_checks_of_positive hpos
      have hrun : patchProduct L idParam body =
          (⟨200, .entity { old with price := n }⟩, L.set i { old with price := n }) := by
        simp [patchProduct, hfind, hp, hname, JSVal.isDefined, patchName, h1, h2, h3,
          mutateFirst_eq_set _ _ L i old hi hold]
      exact ⟨i, old, { old with price := n }, hold, hpold, hfirst, rfl, fun _ => rfl,
        fun h => absurd hname h, fun h => by simp [hp] at h,
        fun m hm => by simp [hp] at hm; simp [hm], hrun, key _ hrun⟩
  · have hdef : body.name.isDefined = true := by
      cases hd : body.name.isDefined with
      | true => rfl
      | false => exact absurd (JSVal.isDefined_eq_false.mp hd) hname
    rcases hprice with hp | ⟨n, hp, hpos⟩
    · have hrun : patchProduct L idParam body =
          (⟨200, .entity { old with name := body.name }⟩,
            L.set i { old with name := body.name }) := by
        simp [patchProduct, hfind, hp, hdef, JSVal.isDefined, patchName,
          mutateFirst_eq_set _ _ L i old hi hold]
      exact ⟨i, old, { old with name := body.name }, hold, hpold, hfirst, rfl,
        fun h => absurd h hname, fun _ => rfl, fun _ => rfl,
        fun m hm => by simp [hp] at hm, hrun, key _ hrun⟩
    · obtain ⟨-, h1, h2, h3⟩ := JSVal.price_checks_of_positive hpos
      have hrun : patchProduct L idParam body =
          (⟨200, .entity { old with name := body.name, price := n }⟩,
            L.set i { old with name := body.name, price := n }) := by
        simp only [patchProduct, hfind, hp, hdef, JSVal.isDefined, patchName, h1, h2, h3,
          if_true]
        rw [mutateFirst_mutateFirst (fun p : Product => p.id.strictEq (stringToNumber idParam))
          (fun p => { p with price := n }) (fun p => { p with name := body.name }) L
          (fun _ => rfl), mutateFirst_eq_set _ _ L i old hi hold]
      exact ⟨i, old, { old with name := body.name, price := n }, hold, hpold, hfirst, rfl,
        fun h => absurd h hname, fun _ => rfl, fun h => by simp [hp] at h,
        fun m hm => by simp [hp] at hm; simp [hm], hrun, key _ hrun⟩

open Practice2 in
/-- Witness of C3: a PATCH of the price alone of product 2 of the start-up array. -/
theorem patchProduct_frame_witness :
    ∃ (i : Nat) (old new : Product),
      initialProducts[i]? = some old ∧ old.id.strictEq (stringToNumber "2") = true ∧
      (∀ (j : Nat) (y : Product), j < i → initialProducts[j]? = some y →
        y.id.strictEq (stringToNumber "2") = false) ∧
      new.id = old.id ∧
      ((⟨.undefined, .num (.fin 100)⟩ : ReqBody).name = .undefined → new.name = old.name) ∧
      ((⟨.undefined, .num (.fin 100)⟩ : ReqBody).name ≠ .undefined →
        new.name = (⟨.undefined, .num (.fin 100)⟩ : ReqBody).name) ∧
      ((⟨.undefined, .num (.fin 100)⟩ : ReqBody).price = .undefined →
        new.price = old.price) ∧
      (∀ n, (⟨.undefined, .num (.fin 100)⟩ : ReqBody).price = .num n → new.price = n) ∧
      patchProduct initialProducts "2" ⟨.undefined, .num (.fin 100)⟩ =
        (⟨200, .entity new⟩, initialProducts.set i new) ∧
      (patchProduct initialProducts "2" ⟨.undefined, .num (.fin 100)⟩).2.length =
        initialProducts.length ∧
      ∀ j, j ≠ i →
        (patchProduct initialProducts "2" ⟨.undefined, .num (.fin 100)⟩).2[j]? =
          initialProducts[j]? :=
  patchProduct_frame initialProducts "2" ⟨.undefined, .num (.fin 100)⟩
    ⟨⟨.fin 2, .str "Смартфон", .fin 45000⟩, by decide, by decide⟩
    (Or.inr ⟨.fin 100, rfl, by decide⟩)

open Practice2 Practice3 in
/-- C6: GET /products/:id and GET /users/:id answer 404 exactly when no element of the
array has the id; otherwise they answer 200 with the element at the first index whose
id matches; the array is unchanged either way. -/
theorem getById_first_match (P : List Product) (U : List User) (idParam : String) :
    (((getProductById P idParam).1.status = 404 ↔
        ∀ p ∈ P, p.id.strictEq (stringToNumber idParam) = false) ∧
      ((∃ p ∈ P, p.id.strictEq (stringToNumber idParam) = true) →
        ∃ i p, P[i]? = some p ∧ p.id.strictEq (stringToNumber idParam) = true ∧
          (∀ (j : Nat) (y : Product), j < i → P[j]? = some y →
            y.id.strictEq (stringToNumber idParam) = false) ∧
          (getProductById P idParam).1 = ⟨200, .entity p⟩) ∧
      (getProductById P idParam).2 = P) ∧
    (((getUserById U idParam).1.status = 404 ↔
        ∀ u ∈ U, looseEqNumStr u.id idParam = false) ∧
      ((∃ u ∈ U, looseEqNumStr u.id idParam = true) →
        ∃ i u, U[i]? = some u ∧ looseEqNumStr u.id idParam = true ∧
          (∀ (j : Nat) (y : User), j < i → U[j]? = some y → looseEqNumStr y.id idParam = false) ∧
          (getUserById U idParam).1 = ⟨200, .entity u⟩) ∧
      (getUserById U idParam).2 = U) := by
  refine ⟨⟨?_, ?_, ?_⟩, ?_, ?_, ?_⟩
  · constructor
    · intro h p hp
      by_contra hne
      obtain ⟨i, x, -, hfind, -⟩ := find?_first_match
        (fun p : Product => p.id.strictEq (stringToNumber idParam)) P ⟨p, hp, by simpa using hne⟩
      simp [getProductById, hfind] at h
    · intro h
      simp [getProductById, find?_eq_none_of_no_match _ P h, Practice2.notFound]
  · intro h
    obtain ⟨i, x, -, hfind, hx, hpx, hfirst⟩ := find?_first_match
      (fun p : Product => p.id.strictEq (stringToNumber idParam)) P h
    exact ⟨i, x, hx, hpx, hfirst, by simp [getProductById, hfind]⟩
  · cases h : P.find? (fun p => p.id.strictEq (stringToNumber idParam)) <;>
      simp [getProductById, h]
  · constructor
    · intro h u hu
      by_contra hne
      obtain ⟨i, x, -, hfind, -⟩ := find?_first_match
        (fun u : User => looseEqNumStr u.id idParam) U ⟨u, hu, by simpa using hne⟩
      simp [getUserById, hfind] at h
    · intro h
      simp [getUserById, find?_eq_none_of_no_match _ U h, Practice3.notFound]
  · intro h
    obtain ⟨i, x, -, hfind, hx, hpx, hfirst⟩ := find?_first_match
      (fun u : User => looseEqNumStr u.id idParam) U h
    exact ⟨i, x, hx, hpx, hfirst, by simp [getUserById, hfind]⟩
  · cases h : U.find? (fun u => looseEqNumStr u.id idParam) <;>
      simp [getUserById, h]

open Practice2 in
/-- C8: PUT /products/:id, when some product has the id, with a non-empty string name
`n` and a positive number `p`, answers 200 with the object of that id, name `n` and
price `p`, and the array afterwards is the old one with exactly the element at the
first matching index `i` replaced by that object; its id is the id the old element had. -/
theorem putProduct_replaced (L : List Product) (idParam : String) (n : String) (p : JSNum)
    (hmem : ∃ x ∈ L, x.id.strictEq (stringToNumber idParam) = true)
    (hn : n ≠ "") (hp : p.isPositive = true) :
    ∃ (i : Nat) (old : Product),
      L[i]? = some old ∧ old.id.strictEq (stringToNumber idParam) = true ∧
      (∀ (j : Nat) (y : Product), j < i → L[j]? = some y → y.id.strictEq (stringToNumber idParam) = false) ∧
      putProduct L idParam ⟨.str n, .num p⟩ =
        (⟨200, .entity ⟨old.id, .str n, p⟩⟩, L.set i ⟨old.id, .str n, p⟩) ∧
      (putProduct L idParam ⟨.str n, .num p⟩).2.length = L.length ∧
      ∀ j, j ≠ i → (putProduct L idParam ⟨.str n, .num p⟩).2[j]? = L[j]? := by
  obtain ⟨i, old, hi, -, hold, hpold, hfirst⟩ := find?_first_match _ L hmem
  obtain ⟨h0, h1, h2, h3⟩ := JSVal.price_checks_of_positive hp
  have hid : stringToNumber idParam = old.id := (JSNum.eq_of_strictEq hpold).symm
  have hrun : putProduct L idParam ⟨.str n, .num p⟩ =
      (⟨200, .entity ⟨old.id, .str n, p⟩⟩, L.set i ⟨old.id, .str n, p⟩) := by
    have h0t : p.truthy = true := by simpa [JSVal.toBoolean] using h0
    have hi2 := hi
    rw [hid] at hi2
    simp [putProduct, JSVal.toBoolean, h0t, h1, h2, h3, hid, hi2, hn]
  refine ⟨i, old, hold, hpold, hfirst, hrun, ?_, ?_⟩
  · rw [hrun]
    simp
  · intro j hj
    rw [hrun]
    simp [List.getElem?_set_ne (Ne.symm hj)]

open Practice2 in
/-- Witness of C8: PUT on product 2 of the start-up array. -/
theorem putProduct_replaced_witness :
    ∃ (i : Nat) (old : Product),
      initialProducts[i]? = some old ∧ old.id.strictEq (stringToNumber "2") = true ∧
      (∀ (j : Nat) (y : Product), j < i → initialProducts[j]? = some y →
        y.id.strictEq (stringToNumber "2") = false) ∧
      putProduct initialProducts "2" ⟨.str "Планшет", .num (.fin 30000)⟩ =
        (⟨200, .entity ⟨old.id, .str "Планшет", .fin 30000⟩⟩,
          initialProducts.set i ⟨old.id, .str "Планшет", .fin 30000⟩) ∧
      (putProduct initialProducts "2" ⟨.str "Планшет", .num (.fin 30000)⟩).2.length =
        initialProducts.length ∧
      ∀ j, j ≠ i →
        (putProduct initialProducts "2" ⟨.str "Планшет", .num (.fin 30000)⟩).2[j]? =
          initialProducts[j]? :=
  putProduct_replaced initialProducts "2" "Планшет" (.fin 30000)
    ⟨⟨.fin 2, .str "Смартфон", .fin 45000⟩, by decide, by decide⟩ (by decide) (by decide)

open Practice2 in
/-- C9: DELETE /products/:id keeps exactly the products whose id differs, in their
order. It answers 404 with the array as it was exactly when no product has the id, and
200 otherwise; no product of that id remains. -/
theorem deleteProduct_removes_all (L : List Product) (idParam : String) :
    (((deleteProduct L idParam).1.status = 404 ∧ (deleteProduct L idParam).2 = L) ↔
        ∀ p ∈ L, p.id.strictEq (stringToNumber idParam) = false) ∧
      ((∃ p ∈ L, p.id.strictEq (stringToNumber idParam) = true) →
        (deleteProduct L idParam).1.status = 200) ∧
      (deleteProduct L idParam).2 =
        L.filter (fun p => !p.id.strictEq (stringToNumber idParam)) ∧
      (∀ p ∈ (deleteProduct L idParam).2, p.id.strictEq (stringToNumber idParam) = false) ∧
      List.Sublist (deleteProduct L idParam).2 L := by
  have hlist : (deleteProduct L idParam).2 =
      L.filter (fun p => !p.id.strictEq (stringToNumber idParam)) := by
    simp only [deleteProduct]
    split <;> rfl
  have hlen : (L.filter (fun p => !p.id.strictEq (stringToNumber idParam))).length = L.length ↔
      ∀ p ∈ L, p.id.strictEq (stringToNumber idParam) = false := by
    rw [List.filter_length_eq_length]
    simp
  refine ⟨⟨?_, ?_⟩, ?_, hlist, ?_, ?_⟩
  · rintro ⟨-, h⟩
    rw [hlist] at h
    exact hlen.mp (by rw [h])
  · intro h
    refine ⟨?_, ?_⟩
    · simp only [deleteProduct]
      rw [if_pos (hlen.mpr h)]
      rfl
    · rw [hlist, List.filter_eq_self]
      intro p hp
      simp [h p hp]
  · rintro ⟨p, hp, hpm⟩
    have hne : ¬ (L.filter (fun p => !p.id.strictEq (stringToNumber idParam))).length =
        L.length := by
      intro h
      have := hlen.mp h p hp
      simp [hpm] at this
    simp only [deleteProduct]
    rw [if_neg hne]
  · intro p hp
    rw [hlist] at hp
    simpa using (List.mem_filter.mp hp).2
  · rw [hlist]
    exact List.filter_sublist L

open Practice2 in
/-- C10, counterexample: no product of the start-up array has id 999, yet PUT
/products/999 with an empty body answers 400, not 404: the body is validated before
the id is looked up. -/
theorem putProduct_unmatched_id_invalid_body :
    (∀ p ∈ initialProducts, p.id.strictEq (stringToNumber "999") = false) ∧
      putProduct initialProducts "999" ⟨.undefined, .undefined⟩ =
        (⟨400, .errorWithSample "Для PUT нужны name и price" "Новый товар" 1000⟩,
          initialProducts) := by
  decide

open Practice2 Practice3 in
/-- C10, amended: when no element has the id, PATCH /products/:id and PUT /users/:id
answer 404 for every body, and PUT /products/:id answers 404 for every body that passes
its validation (truthy name, price converting to a positive number) but 400 for a body
that fails it; the array is unchanged in every case. -/
theorem update_unmatched_id (P : List Product) (U : List User) (idParam : String)
    (pbody : Practice2.ReqBody) (ubody : Practice3.ReqBody)
    (hP : ∀ p ∈ P, p.id.strictEq (stringToNumber idParam) = false)
    (hU : ∀ u ∈ U, looseEqNumStr u.id idParam = false) :
    patchProduct P idParam pbody = (Practice2.notFound, P) ∧
      putUser U idParam ubody = (Practice3.notFound, U) ∧
      (putProduct P idParam pbody).2 = P ∧
      ((pbody.name.toBoolean = true ∧
          ∃ n, pbody.price.toNumber = some n ∧ n.isPositive = true) →
        putProduct P idParam pbody = (Practice2.notFound, P)) ∧
      ((pbody.name.toBoolean = false ∨ pbody.price.toBoolean = false ∨
          pbody.price.toNumber = some .nan ∨
          ∃ n, pbody.price.toNumber = some n ∧ n.leZero = true) →
        (putProduct P idParam pbody).1.status = 400) := by
  have hfi : findIndex (fun p : Product => p.id.strictEq (stringToNumber idParam)) P = none :=
    (findIndex_eq_none_iff _ P).mpr hP
  refine ⟨?_, ?_, ?_, ?_, ?_⟩
  · simp [patchProduct, find?_eq_none_of_no_match _ P hP]
  · simp [putUser, find?_eq_none_of_no_match _ U hU]
  · simp only [putProduct, hfi]
    repeat' split
    all_goals rfl
  · rintro ⟨hname, n, hnum, hpos⟩
    have htruthy := JSVal.toBoolean_of_positive hnum hpos
    have hnan : n.isNaN = false := by cases n <;> simp [JSNum.isPositive] at hpos <;> rfl
    have hle : n.leZero = false := by
      cases n <;> simp [JSNum.isPositive] at hpos <;> simp [JSNum.leZero, hpos]
    simp [putProduct, hname, htruthy, JSVal.isNaN, JSVal.leZero, JSVal.Number, hnum, hnan,
      hle, hfi]
  · intro h
    unfold putProduct
    by_cases h1 : (!pbody.name.toBoolean || !pbody.price.toBoolean) = true
    · simp [h1]
    · rw [if_neg h1]
      have h2 : pbody.name.toBoolean = true ∧ pbody.price.toBoolean = true := by
        simpa using h1
      rcases h with h | h | h | ⟨n, h, hn⟩
      · simp [h2.1] at h
      · simp [h2.2] at h
      · simp [JSVal.isNaN, h, JSNum.isNaN, badPrice]
      · cases n <;>
          simp [JSVal.isNaN, JSVal.leZero, h, JSNum.isNaN, badPrice, JSNum.leZero] at hn ⊢
        simp [hn]

open Practice2 Practice3 in
/-- Witness of C10 (amended): id 999 on the two start-up arrays. -/
theorem update_unmatched_id_witness :
    patchProduct initialProducts "999" ⟨.str "Планшет", .num (.fin 30000)⟩ =
        (Practice2.notFound, initialProducts) ∧
      putUser initialUsers "999" ⟨.str "Анна", .num (.fin 30)⟩ =
        (Practice3.notFound, initialUsers) ∧
      putProduct initialProducts "999" ⟨.str "Планшет", .num (.fin 30000)⟩ =
        (Practice2.notFound, initialProducts) := by
  obtain ⟨h1, h2, -, h3, -⟩ := update_unmatched_id initialProducts initialUsers "999"
    ⟨.str "Планшет", .num (.fin 30000)⟩ ⟨.str "Анна", .num (.fin 30)⟩
    (by decide) (by decide)
  exact ⟨h1, h2, h3 ⟨rfl, .fin 30000, rfl, by decide⟩⟩

open Practice3 in
/-- C4, counterexample: after DELETE /users/1 and a POST the array is reachable and
holds two users of id 3 (the new id is the length plus one). DELETE /users/3 answers
204 but removes only the first of them, so the listing still shows a user of id 3 and
a second DELETE /users/3 answers 204 again, not 404. -/
theorem deleteUser_duplicate_id_survives :
    Reachable [⟨.fin 2, .str "Иван", .fin 18⟩, ⟨.fin 3, .str "Дарья", .fin 20⟩,
        ⟨.fin 3, .str "Анна", .fin 30⟩] ∧
      deleteUser [⟨.fin 2, .str "Иван", .fin 18⟩, ⟨.fin 3, .str "Дарья", .fin 20⟩,
          ⟨.fin 3, .str "Анна", .fin 30⟩] "3" =
        (⟨204, .empty⟩,
          [⟨.fin 2, .str "Иван", .fin 18⟩, ⟨.fin 3, .str "Анна", .fin 30⟩]) ∧
      getUsers [⟨.fin 2, .str "Иван", .fin 18⟩, ⟨.fin 3, .str "Анна", .fin 30⟩] =
        (⟨200, .list [⟨.fin 2, .str "Иван", .fin 18⟩, ⟨.fin 3, .str "Анна", .fin 30⟩]⟩,
          [⟨.fin 2, .str "Иван", .fin 18⟩, ⟨.fin 3, .str "Анна", .fin 30⟩]) ∧
      (deleteUser [⟨.fin 2, .str "Иван", .fin 18⟩, ⟨.fin 3, .str "Анна", .fin 30⟩] "3").1.status
        = 204 := by
  refine ⟨⟨[.delete "1", .post ⟨.str "Анна", .num (.fin 30)⟩], by decide⟩, ?_, ?_, ?_⟩ <;>
    decide

open Practice3 in
/-- C4, amended: when some user has the id, DELETE /users/:id answers 204 and removes
the first such user only: the array afterwards is the old one without the entry at the
first index `i` whose user has the id, which is what GET /users then lists, and one
fewer user has the id. When exactly one user had it, the listing afterwards holds no
user of that id and a second DELETE answers 404; when several had it, one is still
listed and a second DELETE answers 204 again. -/
theorem deleteUser_first_match_only (L : List User) (idParam : String)
    (hmem : ∃ u ∈ L, looseEqNumStr u.id idParam = true) :
    ∃ (i : Nat) (old : User),
      L[i]? = some old ∧ looseEqNumStr old.id idParam = true ∧
      (∀ (j : Nat) (y : User), j < i → L[j]? = some y → looseEqNumStr y.id idParam = false) ∧
      deleteUser L idParam = (⟨204, .empty⟩, L.eraseIdx i) ∧
      (deleteUser L idParam).1.status = 204 ∧
      getUsers (deleteUser L idParam).2 = (⟨200, .list (L.eraseIdx i)⟩, L.eraseIdx i) ∧
      (deleteUser L idParam).2.countP (fun u => looseEqNumStr u.id idParam) + 1 =
        L.countP (fun u => looseEqNumStr u.id idParam) ∧
      (L.countP (fun u => looseEqNumStr u.id idParam) = 1 →
        (∀ u ∈ (deleteUser L idParam).2, looseEqNumStr u.id idParam = false) ∧
        deleteUser (deleteUser L idParam).2 idParam = (notFound, L.eraseIdx i)) ∧
      (L.countP (fun u => looseEqNumStr u.id idParam) ≠ 1 →
        (∃ u ∈ (deleteUser L idParam).2, looseEqNumStr u.id idParam = true) ∧
        (deleteUser (deleteUser L idParam).2 idParam).1.status = 204) := by
  obtain ⟨i, old, hi, -, hold, hpold, hfirst⟩ := find?_first_match _ L hmem
  have hrun : deleteUser L idParam = (⟨204, .empty⟩, L.eraseIdx i) := by
    simp [deleteUser, hi]
  have hcount := countP_eraseIdx_findIndex _ L i hi
  refine ⟨i, old, hold, hpold, hfirst, hrun, ?_⟩
  rw [hrun]
  refine ⟨rfl, rfl, hcount, ?_, ?_⟩
  · intro h1
    have h0 : (L.eraseIdx i).countP (fun u => looseEqNumStr u.id idParam) = 0 := by omega
    have hnone : ∀ u ∈ L.eraseIdx i, looseEqNumStr u.id idParam = false := by
      intro u hu
      have := (List.countP_eq_zero.mp h0) u hu
      simpa using this
    refine ⟨hnone, ?_⟩
    simp [deleteUser, (findIndex_eq_none_iff _ _).mpr hnone]
  · intro h1
    have hpos : 0 < (L.eraseIdx i).countP (fun u => looseEqNumStr u.id idParam) := by omega
    obtain ⟨u, hu, hpu⟩ := List.countP_pos_iff.mp hpos
    refine ⟨⟨u, hu, hpu⟩, ?_⟩
    obtain ⟨k, hk⟩ := findIndex_of_mem (fun u : User => looseEqNumStr u.id idParam)
      (L.eraseIdx i) ⟨u, hu, hpu⟩
    simp [deleteUser, hk]

open Practice3 in
/-- Witness of C4 (amended): DELETE /users/2 on the start-up array removes user 2 and
nothing else; a second DELETE /users/2 is answered 404 and changes nothing. -/
theorem deleteUser_first_match_only_witness :
    deleteUser initialUsers "2" =
        (⟨204, .empty⟩, [⟨.fin 1, .str "Петр", .fin 16⟩, ⟨.fin 3, .str "Дарья", .fin 20⟩]) ∧
      deleteUser (deleteUser initialUsers "2").2 "2" =
        (notFound, [⟨.fin 1, .str "Петр", .fin 16⟩, ⟨.fin 3, .str "Дарья", .fin 20⟩]) := by
  obtain ⟨i, old, hold, hmatch, hfirst, hrun, -, -, -, h2, -⟩ :=
    deleteUser_first_match_only initialUsers "2"
      ⟨⟨.fin 2, .str "Иван", .fin 18⟩, by decide, by decide⟩
  have hi : i = 1 := by
    match i, hold, hmatch, hfirst with
    | 0, hold, hmatch, _ =>
      simp only [initialUsers, List.getElem?_cons_zero, Option.some.injEq] at hold
      subst hold
      revert hmatch
      decide
    | 1, _, _, _ => rfl
    | 2, _, _, hfirst =>
      have := hfirst 1 ⟨.fin 2, .str "Иван", .fin 18⟩ (by omega) rfl
      revert this
      decide
    | k + 3, hold, _, _ =>
      simp [initialUsers] at hold
  subst hi
  exact ⟨hrun, (h2 (by decide)).2⟩

/-! ## Theorems: identifiers -/

open Practice3 in
/-- C11: from the three start-up users, DELETE /users/1 (answered 204) followed by a
POST /users (answered 201) gives the new user the id `length + 1 = 3`, which user
"Дарья" already has: the reachable array then holds two different entries of id 3. -/
theorem user_ids_duplicate_after_delete :
    (deleteUser initialUsers "1").1.status = 204 ∧
      (deleteUser initialUsers "1").2.length + 1 = 3 ∧
      postUsers (deleteUser initialUsers "1").2 ⟨.str "Анна", .num (.fin 30)⟩ =
        (⟨201, .entity ⟨.fin 3, .str "Анна", .fin 30⟩⟩,
          [⟨.fin 2, .str "Иван", .fin 18⟩, ⟨.fin 3, .str "Дарья", .fin 20⟩,
            ⟨.fin 3, .str "Анна", .fin 30⟩]) ∧
      Reachable [⟨.fin 2, .str "Иван", .fin 18⟩, ⟨.fin 3, .str "Дарья", .fin 20⟩,
        ⟨.fin 3, .str "Анна", .fin 30⟩] ∧
      ∃ (i j : Nat) (u v : User), i ≠ j ∧ u ≠ v ∧ u.id = v.id ∧
        [(⟨.fin 2, .str "Иван", .fin 18⟩ : User), ⟨.fin 3, .str "Дарья", .fin 20⟩,
          ⟨.fin 3, .str "Анна", .fin 30⟩][i]? = some u ∧
        [(⟨.fin 2, .str "Иван", .fin 18⟩ : User), ⟨.fin 3, .str "Дарья", .fin 20⟩,
          ⟨.fin 3, .str "Анна", .fin 30⟩][j]? = some v := by
  refine ⟨by decide, by decide, by decide,
    ⟨[.delete "1", .post ⟨.str "Анна", .num (.fin 30)⟩], by decide⟩,
    1, 2, ⟨.fin 3, .str "Дарья", .fin 20⟩, ⟨.fin 3, .str "Анна", .fin 30⟩,
    by decide, by decide, rfl, rfl, rfl⟩

open Practice2 in
/-- C12, the code at the failing input: two POST /products served while `Date.now()`
returns the same millisecond give both new products the same id; the second one gets an
id that a product of the array already has, and the reachable array afterwards holds
two products of id 1700000000000. -/
theorem postProducts_same_millisecond_same_id :
    postProducts 1700000000000 initialProducts ⟨.str "Планшет", .num (.fin 30000)⟩ =
        (⟨201, .entity ⟨.fin 1700000000000, .str "Планшет", .fin 30000⟩⟩,
          initialProducts ++ [⟨.fin 1700000000000, .str "Планшет", .fin 30000⟩]) ∧
      postProducts 1700000000000
          (initialProducts ++ [⟨.fin 1700000000000, .str "Планшет", .fin 30000⟩])
          ⟨.str "Чехол", .num (.fin 900)⟩ =
        (⟨201, .entity ⟨.fin 1700000000000, .str "Чехол", .fin 900⟩⟩,
          initialProducts ++ [⟨.fin 1700000000000, .str "Планшет", .fin 30000⟩,
            ⟨.fin 1700000000000, .str "Чехол", .fin 900⟩]) ∧
      Reachable (initialProducts ++ [⟨.fin 1700000000000, .str "Планшет", .fin 30000⟩,
        ⟨.fin 1700000000000, .str "Чехол", .fin 900⟩]) := by
  refine ⟨by decide, by decide,
    ⟨[.post 1700000000000 ⟨.str "Планшет", .num (.fin 30000)⟩,
      .post 1700000000000 ⟨.str "Чехол", .num (.fin 900)⟩], by decide⟩⟩

open Practice2 in
/-- C14, the code at the failing input: PATCH /products/1 with the name `""` is
answered 200 and leaves product 1 with an empty name in a reachable array, although
POST and PUT answer 400 to the same empty name. -/
theorem patchProduct_empty_name_accepted :
    patchProduct initialProducts "1" ⟨.str "", .undefined⟩ =
        (⟨200, .entity ⟨.fin 1, .str "", .fin 75000⟩⟩,
          [⟨.fin 1, .str "", .fin 75000⟩, ⟨.fin 2, .str "Смартфон", .fin 45000⟩,
            ⟨.fin 3, .str "Наушники", .fin 5000⟩]) ∧
      Reachable [⟨.fin 1, .str "", .fin 75000⟩, ⟨.fin 2, .str "Смартфон", .fin 45000⟩,
        ⟨.fin 3, .str "Наушники", .fin 5000⟩] ∧
      (postProducts 0 initialProducts ⟨.str "", .num (.fin 75000)⟩).1.status = 400 ∧
      (putProduct initialProducts "1" ⟨.str "", .num (.fin 75000)⟩).1.status = 400 := by
  refine ⟨by decide, ⟨[.patch "1" ⟨.str "", .undefined⟩], by decide⟩, by decide, by decide⟩

open Practice3 in
/-- C16: POST /users with a non-empty string name `n` and a positive number `a`
answers 201 with the object of id `length + 1`, name `n`, age `a`, and the array
afterwards is the old array with that object appended. -/
theorem postUsers_created (L : List User) (n : String) (a : JSNum)
    (hn : n ≠ "") (ha : a.isPositive = true) :
    postUsers L ⟨.str n, .num a⟩ =
      (⟨201, .entity ⟨.fin (L.length + 1 : ℕ), .str n, a⟩⟩,
        L ++ [⟨.fin (L.length + 1 : ℕ), .str n, a⟩]) := by
  obtain ⟨h0, -, -, h3⟩ := JSVal.price_checks_of_positive ha
  have h0t : a.truthy = true := by simpa [JSVal.toBoolean] using h0
  simp [postUsers, JSVal.toBoolean, h0t, h3, hn]

open Practice3 in
/-- Witness of C16 on the start-up array: the new user gets id 4. -/
theorem postUsers_created_witness :
    postUsers initialUsers ⟨.str "Анна", .num (.fin 30)⟩ =
      (⟨201, .entity ⟨.fin (initialUsers.length + 1 : ℕ), .str "Анна", .fin 30⟩⟩,
        initialUsers ++ [⟨.fin (initialUsers.length + 1 : ℕ), .str "Анна", .fin 30⟩]) :=
  postUsers_created initialUsers "Анна" (.fin 30) (by decide) (by decide)

/-! ## Theorems: invariants of the product array -/

open Practice2 in
theorem patchName_preserves_prices (id : JSNum) (name : JSVal) (product : Product)
    (L : List Product) (h : ∀ p ∈ L, p.price.isPositive = true) :
    ∀ p ∈ (patchName id name product L).2, p.price.isPositive = true := by
  intro p hp
  unfold patchName at hp
  split at hp
  · rcases mem_mutateFirst _ _ L p hp with hp | ⟨y, hy, rfl⟩
    · exact h p hp
    · exact h y hy
  · exact h p hp

open Practice2 in
theorem handle_preserves_prices (L : List Product) (r : Request)
    (h : ∀ p ∈ L, p.price.isPositive = true) :
    ∀ p ∈ (handle L r).2, p.price.isPositive = true := by
  cases r with
  | getAll => exact h
  | getById idParam =>
    intro p hp
    simp only [handle, getProductById] at hp
    split at hp <;> exact h p hp
  | post now body =>
    intro p hp
    simp only [handle, postProducts] at hp
    split at hp
    · exact h p hp
    · split at hp
      · exact h p hp
      · exact h p hp
      · rename_i hnan
        split at hp
        · exact h p hp
        · exact h p hp
        · rename_i hle
          split at hp
          · exact h p hp
          · rename_i price hnum
            rcases List.mem_append.mp hp with hp | hp
            · exact h p hp
            · simp only [List.mem_singleton] at hp
              subst hp
              exact JSVal.positive_of_checks hnan hle hnum
  | put idParam body =>
    intro p hp
    simp only [handle, putProduct] at hp
    split at hp
    · exact h p hp
    · split at hp
      · exact h p hp
      · exact h p hp
      · rename_i hnan
        split at hp
        · exact h p hp
        · exact h p hp
        · rename_i hle
          split at hp
          · exact h p hp
          · split at hp
            · exact h p hp
            · rename_i price hnum
              rcases List.mem_or_eq_of_mem_set hp with hp | hp
              · exact h p hp
              · subst hp
                exact JSVal.positive_of_checks hnan hle hnum
  | patch idParam body =>
    intro p hp
    simp only [handle, patchProduct] at hp
    split at hp
    · exact h p hp
    · split at hp
      · split at hp
        · exact h p hp
        · exact h p hp
        · rename_i hnan
          split at hp
          · exact h p hp
          · exact h p hp
          · rename_i hle
            split at hp
            · exact h p hp
            · rename_i price hnum
              refine patchName_preserves_prices _ _ _ _ ?_ p hp
              intro x hx
              rcases mem_mutateFirst _ _ L x hx with hx | ⟨y, -, rfl⟩
              · exact h x hx
              · exact JSVal.positive_of_checks hnan hle hnum
      · exact patchName_preserves_prices _ _ _ _ h p hp
  | delete idParam =>
    intro p hp
    simp only [handle, deleteProduct] at hp
    split at hp <;> exact h p (List.mem_filter.mp hp).1

open Practice2 in
theorem run_preserves_prices (rs : List Request) (L : List Product)
    (h : ∀ p ∈ L, p.price.isPositive = true) :
    ∀ p ∈ run L rs, p.price.isPositive = true := by
  induction rs generalizing L with
  | nil => exact h
  | cons r rs ih => exact ih (handle L r).2 (handle_preserves_prices L r h)

open Practice2 in
/-- C13: in every array reachable from the start-up products by any sequence of
requests (POST, PUT, PATCH, DELETE, and the GETs), every product has a price that is a
number strictly greater than zero. -/
theorem product_prices_positive (L : List Product) (h : Reachable L) :
    ∀ p ∈ L, p.price.isPositive = true := by
  obtain ⟨rs, rfl⟩ := h
  exact run_preserves_prices rs initialProducts (by decide)

open Practice2 in
/-- Witness of C13: the array after a POST, a PATCH of the price, a PUT and a DELETE. -/
theorem product_prices_positive_witness :
    (run initialProducts
        [.post 1700000000000 ⟨.str "Планшет", .num (.fin 30000)⟩,
          .patch "1" ⟨.undefined, .str "80000"⟩,
          .put "2" ⟨.str "Телефон", .num (.fin 40000)⟩,
          .delete "3"]).all (fun p => p.price.isPositive) = true :=
  List.all_eq_true.mpr
    (product_prices_positive _
      ⟨[.post 1700000000000 ⟨.str "Планшет", .num (.fin 30000)⟩,
        .patch "1" ⟨.undefined, .str "80000"⟩,
        .put "2" ⟨.str "Телефон", .num (.fin 40000)⟩,
        .delete "3"], rfl⟩)

/-! ## Theorems: PUT /users/:id -/

open Practice3 in
/-- C15, counterexample: PUT /users/1 with an age only, and with a name only, is
answered 200 and the supplied field is assigned; no 400 is sent and the array changes. -/
theorem putUser_partial_body_accepted :
    putUser initialUsers "1" ⟨.undefined, .num (.fin 30)⟩ =
        (⟨200, .entity ⟨.fin 1, .str "Петр", .fin 30⟩⟩,
          [⟨.fin 1, .str "Петр", .fin 30⟩, ⟨.fin 2, .str "Иван", .fin 18⟩,
            ⟨.fin 3, .str "Дарья", .fin 20⟩]) ∧
      putUser initialUsers "1" ⟨.str "Пётр", .undefined⟩ =
        (⟨200, .entity ⟨.fin 1, .str "Пётр", .fin 16⟩⟩,
          [⟨.fin 1, .str "Пётр", .fin 16⟩, ⟨.fin 2, .str "Иван", .fin 18⟩,
            ⟨.fin 3, .str "Дарья", .fin 20⟩]) := by
  decide

open Practice3 in
/-- C15, amended: PUT /users/:id does not require the full payload. When some user has
the id, the name or the age of the body is missing (falsy) and the age, if any,
converts to a number, the answer is 200 with the updated user `new`, which replaces
the first matching user: `new` keeps the id, takes the supplied field and keeps the
old value of every missing field. -/
theorem putUser_partial_body (L : List User) (idParam : String) (body : ReqBody)
    (hmem : ∃ u ∈ L, looseEqNumStr u.id idParam = true)
    (hmiss : body.name.toBoolean = false ∨ body.age.toBoolean = false)
    (hconv : body.age.toNumber ≠ none) :
    ∃ (i : Nat) (old new : User),
      L[i]? = some old ∧ looseEqNumStr old.id idParam = true ∧
      (∀ (j : Nat) (y : User), j < i → L[j]? = some y → looseEqNumStr y.id idParam = false) ∧
      new.id = old.id ∧
      (body.name.toBoolean = false → new.name = old.name) ∧
      (body.name.toBoolean = true → new.name = body.name) ∧
      (body.age.toBoolean = false → new.age = old.age) ∧
      (body.age.toBoolean = true → body.age.toNumber = some new.age) ∧
      (new.name = old.name ∨ new.age = old.age) ∧
      putUser L idParam body = (⟨200, .entity new⟩, L.set i new) := by
  obtain ⟨i, old, hi, hfind, hold, hpold, hfirst⟩ := find?_first_match _ L hmem
  have hrun := putUser_eq L idParam body i old hi hold hfind
  by_cases ha : body.age.toBoolean = true
  · have hn : body.name.toBoolean = false := by
      rcases hmiss with h | h
      · exact h
      · simp [ha] at h
    cases hnum : body.age.toNumber with
    | none => exact absurd hnum hconv
    | some a =>
      refine ⟨i, old, ⟨old.id, old.name, a⟩, hold, hpold, hfirst, rfl, fun _ => rfl,
        fun h => by simp [hn] at h, fun h => by simp [ha] at h, fun _ => rfl, Or.inl rfl, ?_⟩
      rw [hrun]
      simp [ha, hn, hnum]
  · have ha2 : body.age.toBoolean = false := by simpa using ha
    refine ⟨i, old, ⟨old.id, if body.name.toBoolean = true then body.name else old.name,
      old.age⟩, hold, hpold, hfirst, rfl, fun h => by simp [h], fun h => by simp [h],
      fun _ => rfl, fun h => absurd h ha, Or.inr rfl, ?_⟩
    rw [hrun]
    simp [ha2]

open Practice3 in
/-- Witness of C15 (amended): a body with an age only, for user 1 of the start-up array. -/
theorem putUser_partial_body_witness :
    ∃ (i : Nat) (old new : User),
      initialUsers[i]? = some old ∧ new.id = old.id ∧ new.name = old.name ∧
      putUser initialUsers "1" ⟨.undefined, .num (.fin 30)⟩ =
        (⟨200, .entity new⟩, initialUsers.set i new) := by
  obtain ⟨i, old, new, h1, -, -, h2, h3, -, -, -, -, h4⟩ :=
    putUser_partial_body initialUsers "1" ⟨.undefined, .num (.fin 30)⟩
      ⟨⟨.fin 1, .str "Петр", .fin 16⟩, by decide, by decide⟩ (Or.inl rfl) (by decide)
  exact ⟨i, old, new, h1, h2, h3 rfl, h4⟩

open Practice3 in
/-- C18, counterexample: when the age of the body is an object whose conversion to a
number throws (own non-callable `valueOf` and `toString`), `Number(age)` throws after
the name has been assigned: PUT /users/1 is answered 500, not 200. -/
theorem putUser_unconvertible_age_throws :
    putUser initialUsers "1"
        ⟨.str "Пётр", .object "\x7b\"valueOf\":1,\"toString\":1\x7d" none⟩ =
      (⟨500, .uncaught⟩,
        [⟨.fin 1, .str "Пётр", .fin 16⟩, ⟨.fin 2, .str "Иван", .fin 18⟩,
          ⟨.fin 3, .str "Дарья", .fin 20⟩]) := by
  decide

open Practice3 in
/-- C18, amended: when some user has the id, PUT /users/:id changes the array at one
place only, the first index `i` whose user has the id: there the id is kept, the name
is the supplied one if truthy, else the old one, the age is `Number(age)` if the age is
truthy and converts, else the old one; the length and every other index are as before.
The answer is 200 with that user unless `Number(age)` throws, when it is 500. -/
theorem putUser_frame (L : List User) (idParam : String) (body : ReqBody)
    (hmem : ∃ u ∈ L, looseEqNumStr u.id idParam = true) :
    ∃ (i : Nat) (old new : User),
      L[i]? = some old ∧ looseEqNumStr old.id idParam = true ∧
      (∀ (j : Nat) (y : User), j < i → L[j]? = some y → looseEqNumStr y.id idParam = false) ∧
      new.id = old.id ∧
      (body.name.toBoolean = false → new.name = old.name) ∧
      (body.name.toBoolean = true → new.name = body.name) ∧
      (body.age.toBoolean = false → new.age = old.age) ∧
      (∀ a, body.age.toBoolean = true → body.age.toNumber = some a → new.age = a) ∧
      (body.age.toBoolean = true → body.age.toNumber = none → new.age = old.age) ∧
      (putUser L idParam body).2 = L.set i new ∧
      (body.age.toBoolean = false ∨ body.age.toNumber ≠ none →
        (putUser L idParam body).1 = ⟨200, .entity new⟩) ∧
      (body.age.toBoolean = true → body.age.toNumber = none →
        (putUser L idParam body).1.status = 500) ∧
      (putUser L idParam body).2.length = L.length ∧
      ∀ j, j ≠ i → (putUser L idParam body).2[j]? = L[j]? := by
  obtain ⟨i, old, hi, hfind, hold, hpold, hfirst⟩ := find?_first_match _ L hmem
  have hrun := putUser_eq L idParam body i old hi hold hfind
  have key : ∀ new : User, (putUser L idParam body).2 = L.set i new →
      (putUser L idParam body).2.length = L.length ∧
      ∀ j, j ≠ i → (putUser L idParam body).2[j]? = L[j]? := by
    intro new h
    rw [h]
    refine ⟨by simp, ?_⟩
    intro j hj
    simp [List.getElem?_set_ne (Ne.symm hj)]
  by_cases ha : body.age.toBoolean = true
  · cases hnum : body.age.toNumber with
    | none =>
      have hlist : (putUser L idParam body).2 = L.set i
          ⟨old.id, if body.name.toBoolean = true then body.name else old.name, old.age⟩ := by
        rw [hrun]
        simp [ha, hnum]
      refine ⟨i, old,
        ⟨old.id, if body.name.toBoolean = true then body.name else old.name, old.age⟩,
        hold, hpold, hfirst, rfl, fun h => by simp [h], fun h => by simp [h],
        fun _ => rfl, fun a _ h => by simp at h, fun _ _ => rfl, hlist, ?_, ?_,
        (key _ hlist).1, (key _ hlist).2⟩
      · rintro (h | h)
        · simp [ha] at h
        · exact absurd rfl h
      · intro _ _
        rw [hrun]
        simp [ha, hnum, internalError]
    | some a =>
      have hlist : (putUser L idParam body).2 = L.set i
          ⟨old.id, if body.name.toBoolean = true then body.name else old.name, a⟩ := by
        rw [hrun]
        simp [ha, hnum]
      refine ⟨i, old,
        ⟨old.id, if body.name.toBoolean = true then body.name else old.name, a⟩,
        hold, hpold, hfirst, rfl, fun h => by simp [h], fun h => by simp [h],
        fun h => by simp [ha] at h, fun b _ h => by simpa using h,
        fun _ h => by simp at h, hlist, ?_, ?_, (key _ hlist).1, (key _ hlist).2⟩
      · intro _
        rw [hrun]
        simp [ha, hnum]
      · intro _ h
        simp at h
  · have ha2 : body.age.toBoolean = false := by simpa using ha
    have hlist : (putUser L idParam body).2 = L.set i
        ⟨old.id, if body.name.toBoolean = true then body.name else old.name, old.age⟩ := by
      rw [hrun]
      simp [ha2]
    refine ⟨i, old,
      ⟨old.id, if body.name.toBoolean = true then body.name else old.name, old.age⟩,
      hold, hpold, hfirst, rfl, fun h => by simp [h], fun h => by simp [h],
      fun _ => rfl, fun a h _ => absurd h ha, fun _ _ => rfl, hlist, ?_, ?_,
      (key _ hlist).1, (key _ hlist).2⟩
    · intro _
      rw [hrun]
      simp [ha2]
    · intro h _
      exact absurd h ha

open Practice3 in
/-- Witness of C18 (amended): a full body for user 2 of the start-up array. -/
theorem putUser_frame_witness :
    (putUser initialUsers "2" ⟨.str "Илья", .num (.fin 19)⟩).2.length = initialUsers.length := by
  obtain ⟨i, old, new, -, -, -, -, -, -, -, -, -, -, -, -, hlen, -⟩ :=
    putUser_frame initialUsers "2" ⟨.str "Илья", .num (.fin 19)⟩
      ⟨⟨.fin 2, .str "Иван", .fin 18⟩, by decide, by decide⟩
  exact hlen

/-! ## Theorems: PATCH validation, round trip, single removal -/

open Practice2 in
/-- C17, counterexample: the price `true` is present and is not a number, yet PATCH
/products/1 answers 200 and assigns both the price `Number(true) = 1` and the name. -/
theorem patchProduct_boolean_price_accepted :
    patchProduct initialProducts "1" ⟨.str "Планшет", .bool true⟩ =
      (⟨200, .entity ⟨.fin 1, .str "Планшет", .fin 1⟩⟩,
        [⟨.fin 1, .str "Планшет", .fin 1⟩, ⟨.fin 2, .str "Смартфон", .fin 45000⟩,
          ⟨.fin 3, .str "Наушники", .fin 5000⟩]) := by
  decide

open Practice2 in
/-- C17, amended: when some product has the id and the price of the body is present
and converts under ToNumber to NaN, to zero or to a negative number, PATCH
/products/:id answers 400 and the array is as it was, whatever name the body supplies. -/
theorem patchProduct_invalid_price (L : List Product) (idParam : String) (body : ReqBody)
    (hmem : ∃ p ∈ L, p.id.strictEq (stringToNumber idParam) = true)
    (hdef : body.price ≠ .undefined)
    (hbad : body.price.toNumber = some .nan ∨
      ∃ n, body.price.toNumber = some n ∧ n.leZero = true) :
    patchProduct L idParam body = (badPrice, L) := by
  obtain ⟨i, old, -, hfind, -⟩ := find?_first_match _ L hmem
  have hd : body.price.isDefined = true := by
    cases hd : body.price.isDefined with
    | true => rfl
    | false => exact absurd (JSVal.isDefined_eq_false.mp hd) hdef
  rcases hbad with h | ⟨n, h, hn⟩
  · simp [patchProduct, hfind, hd, JSVal.isNaN, h, JSNum.isNaN]
  · cases n <;>
      simp [patchProduct, hfind, hd, JSVal.isNaN, JSVal.leZero, h, JSNum.isNaN,
        JSNum.leZero] at hn ⊢
    simp [hn]

open Practice2 in
/-- Witness of C17 (amended): a negative price together with a name, for product 1. -/
theorem patchProduct_invalid_price_witness :
    patchProduct initialProducts "1" ⟨.str "Планшет", .num (.fin (-5))⟩ =
      (badPrice, initialProducts) :=
  patchProduct_invalid_price initialProducts "1" ⟨.str "Планшет", .num (.fin (-5))⟩
    ⟨⟨.fin 1, .str "Ноутбук", .fin 75000⟩, by decide, by decide⟩ (by decide)
    (Or.inr ⟨.fin (-5), rfl, by decide⟩)

open Practice2 Practice3 in
/-- C19: after a POST answered 201 on an array in which no element has the id the POST
assigns (`Date.now()` for products, `length + 1` for users), GET by id with a route
parameter that denotes that id answers 200 with exactly the entity the POST returned. -/
theorem create_then_get (P : List Product) (U : List User) (now : Int)
    (pbody : Practice2.ReqBody) (ubody : Practice3.ReqBody) (pid uid : String) :
    ((postProducts now P pbody).1.status = 201 →
      (∀ p ∈ P, p.id.strictEq (.fin now) = false) →
      stringToNumber pid = .fin now →
      ∃ p : Product, (postProducts now P pbody).1 = ⟨201, .entity p⟩ ∧ p.id = .fin now ∧
        getProductById (postProducts now P pbody).2 pid =
          (⟨200, .entity p⟩, (postProducts now P pbody).2)) ∧
    ((postUsers U ubody).1.status = 201 →
      (∀ u ∈ U, u.id.strictEq (.fin (U.length + 1 : ℕ)) = false) →
      stringToNumber uid = .fin (U.length + 1 : ℕ) →
      ∃ u : User, (postUsers U ubody).1 = ⟨201, .entity u⟩ ∧
        u.id = .fin (U.length + 1 : ℕ) ∧
        getUserById (postUsers U ubody).2 uid =
          (⟨200, .entity u⟩, (postUsers U ubody).2)) := by
  constructor
  · intro hst hfresh hid
    obtain ⟨price, hrun⟩ := postProducts_of_created now P pbody hst
    refine ⟨⟨.fin now, pbody.name, price⟩, by rw [hrun], rfl, ?_⟩
    have hnone := find?_eq_none_of_no_match
      (fun p : Product => p.id.strictEq (.fin now)) P hfresh
    have hself : (JSNum.fin now).strictEq (.fin now) = true := by
      simp [JSNum.strictEq, JSNum.isNaN]
    rw [hrun]
    simp only [getProductById, hid, List.find?_append, hnone, Option.none_or, List.find?,
      hself]
  · intro hst hfresh hid
    obtain ⟨age, hrun⟩ := postUsers_of_created U ubody hst
    refine ⟨⟨.fin (U.length + 1 : ℕ), ubody.name, age⟩, by rw [hrun], rfl, ?_⟩
    have hnone := find?_eq_none_of_no_match
      (fun u : User => u.id.strictEq (.fin (U.length + 1 : ℕ))) U hfresh
    have hself : (JSNum.fin (U.length + 1 : ℕ)).strictEq (.fin (U.length + 1 : ℕ)) = true := by
      simp [JSNum.strictEq, JSNum.isNaN]
    rw [hrun]
    simp only [getUserById, looseEqNumStr, hid, List.find?_append, hnone, Option.none_or,
      List.find?, hself]

open Practice2 Practice3 in
/-- Witness of C19 on the two start-up arrays: GET /products/1700000000000 and
GET /users/4 return the entities just created. -/
theorem create_then_get_witness :
    (∃ p : Product,
      (postProducts 1700000000000 initialProducts
        ⟨.str "Планшет", .num (.fin 30000)⟩).1 = ⟨201, .entity p⟩ ∧
      p.id = .fin 1700000000000 ∧
      getProductById (postProducts 1700000000000 initialProducts
          ⟨.str "Планшет", .num (.fin 30000)⟩).2 "1700000000000" =
        (⟨200, .entity p⟩, (postProducts 1700000000000 initialProducts
          ⟨.str "Планшет", .num (.fin 30000)⟩).2)) ∧
    (∃ u : User,
      (postUsers initialUsers ⟨.str "Анна", .num (.fin 30)⟩).1 = ⟨201, .entity u⟩ ∧
      u.id = .fin (initialUsers.length + 1 : ℕ) ∧
      getUserById (postUsers initialUsers ⟨.str "Анна", .num (.fin 30)⟩).2 "4" =
        (⟨200, .entity u⟩, (postUsers initialUsers ⟨.str "Анна", .num (.fin 30)⟩).2)) :=
  ⟨(create_then_get initialProducts initialUsers 1700000000000
      ⟨.str "Планшет", .num (.fin 30000)⟩ ⟨.str "Анна", .num (.fin 30)⟩
      "1700000000000" "4").1 (by decide) (by decide) (by decide),
   (create_then_get initialProducts initialUsers 1700000000000
      ⟨.str "Планшет", .num (.fin 30000)⟩ ⟨.str "Анна", .num (.fin 30)⟩
      "1700000000000" "4").2 (by decide) (by decide) (by decide)⟩

open Practice3 in
/-- C20: when some user has the id, DELETE /users/:id removes exactly the entry at the
first index `i` whose user has the id: the array afterwards is the old one without
index `i`, one shorter, with the entries before `i` in place and the entries after `i`
(later users of the same id included) shifted down by one, in their order. -/
theorem deleteUser_removes_first (L : List User) (idParam : String)
    (hmem : ∃ u ∈ L, looseEqNumStr u.id idParam = true) :
    ∃ (i : Nat) (old : User),
      L[i]? = some old ∧ looseEqNumStr old.id idParam = true ∧
      (∀ (j : Nat) (y : User), j < i → L[j]? = some y → looseEqNumStr y.id idParam = false) ∧
      deleteUser L idParam = (⟨204, .empty⟩, L.eraseIdx i) ∧
      (deleteUser L idParam).2.length + 1 = L.length ∧
      List.Sublist (deleteUser L idParam).2 L ∧
      (∀ j, j < i → (deleteUser L idParam).2[j]? = L[j]?) ∧
      (∀ j, i ≤ j → (deleteUser L idParam).2[j]? = L[j + 1]?) := by
  obtain ⟨i, old, hi, -, hold, hpold, hfirst⟩ := find?_first_match _ L hmem
  have hrun : deleteUser L idParam = (⟨204, .empty⟩, L.eraseIdx i) := by
    simp [deleteUser, hi]
  obtain ⟨hlt, -⟩ := List.getElem?_eq_some.mp hold
  refine ⟨i, old, hold, hpold, hfirst, hrun, ?_, ?_, ?_, ?_⟩
  · rw [hrun]
    simp only [List.length_eraseIdx_of_lt hlt]
    omega
  · rw [hrun]
    exact List.eraseIdx_sublist L i
  · intro j hj
    rw [hrun]
    exact List.getElem?_eraseIdx_of_lt L i j hj
  · intro j hj
    rw [hrun]
    exact List.getElem?_eraseIdx_of_ge L i j hj

open Practice3 in
/-- Witness of C20: DELETE /users/3 on an array with two users of id 3 keeps the later one. -/
theorem deleteUser_removes_first_witness :
    (deleteUser [⟨.fin 2, .str "Иван", .fin 18⟩, ⟨.fin 3, .str "Дарья", .fin 20⟩,
        ⟨.fin 3, .str "Анна", .fin 30⟩] "3").2.length + 1 = 3 := by
  obtain ⟨i, old, -, -, -, -, hlen, -⟩ :=
    deleteUser_removes_first [⟨.fin 2, .str "Иван", .fin 18⟩, ⟨.fin 3, .str "Дарья", .fin 20⟩,
        ⟨.fin 3, .str "Анна", .fin 30⟩] "3"
      ⟨⟨.fin 3, .str "Дарья", .fin 20⟩, by decide, by decide⟩
  exact hlen

end FrontBack
